import Mathlib

/-!
Shallow embedding of the jito relayer fan-out core (src/relayer/src/relayer.rs)
and of the TPU QUIC-server spawn configuration (src/core/src/tpu.rs), with
theorems settling the frozen claims about the natural-language specification.

Modelling conventions: validator identities (solana Pubkey) are natural numbers;
Rust u64/usize counters are Nat with explicit saturation where the source uses
saturating arithmetic; channels are explicit states (queued messages, capacity,
closed/connected flag); the per-subscriber tokio channels live in a heap indexed
by channel id so that cloned senders alias the same channel; fallible or panicking
code returns Option. HashMap iteration order is modelled as insertion order of an
association list; none of the claims depends on the order.
-/

/-- Validator identity (solana_sdk::pubkey::Pubkey), abstracted to a natural number. -/
abbrev Pubkey := Nat

/-- Largest value of a 64-bit unsigned integer (Rust u64, and usize on a 64-bit target). -/
def U64_MAX : Nat := 2 ^ 64 - 1

/-- Rust saturating addition on u64/usize (saturating_add, saturating_add_assign!). -/
def satAdd64 (a b : Nat) : Nat := min (a + b) U64_MAX

/-- Account references of a parsed VersionedTransaction that the denylist check
consults: signer, writable and readable static accounts, and the address
lookup tables the transaction references. -/
structure VersionedTx where
  signers : List Pubkey
  writable : List Pubkey
  readable : List Pubkey
  lookupTables : List Pubkey
deriving DecidableEq

/-- A packet as the event loop sees it: the sigverify discard flag, and the result
of Packet::deserialize_slice as a VersionedTransaction (none when the bytes do
not parse). The raw byte buffer itself is not needed by any claim. -/
structure Packet where
  discard : Bool
  tx : Option VersionedTx
deriving DecidableEq

/-- Modelled from the spec: jito_core::ofac::is_tx_ofac_related is code of this
repository that is not under src/. Per the spec, a transaction is OFAC-related
iff any of its signer, writable, readable, or lookup-table-expanded accounts
appears in the denylist; lut maps a lookup-table address to the accounts it
expands to (the address-lookup-table cache). -/
def is_tx_ofac_related (tx : VersionedTx) (ofac : List Pubkey)
    (lut : Pubkey → List Pubkey) : Bool :=
  (tx.signers ++ tx.writable ++ tx.readable ++ tx.lookupTables.flatMap lut).any
    (fun a => ofac.contains a)

/-- jito_protos::convert::packet_to_proto_packet: fails exactly when Packet::data
does, which happens exactly when the discard flag is set; the proto form keeps
the same payload, so it is modelled as the packet itself. -/
def packet_to_proto_packet (p : Packet) : Option Packet :=
  if p.discard then none else some p

/-- The projection part of RelayerImpl::forward_packets (relayer.rs lines 622-638):
flatten the banking packet batches keeping only non-discarded packets; when the
denylist is non-empty drop packets that do not deserialize or whose transaction
is OFAC-related; convert the survivors to proto form. -/
def projectPackets (ofac : List Pubkey) (lut : Pubkey → List Pubkey)
    (banking_packet_batch : List (List Packet)) : List Packet :=
  ((banking_packet_batch.flatMap (fun batch => batch.filter (fun p => !p.discard))).filterMap
    (fun packet =>
      if ofac.isEmpty then some packet
      else
        match packet.tx with
        | none => none
        | some tx => if is_tx_ofac_related tx ofac lut then none else some packet)).filterMap
    packet_to_proto_packet

/-- Chunking worker, structurally recursive on a fuel argument so that it
computes by reduction; every step with n positive and a non-empty list consumes
at least one element, so fuel l.length suffices. -/
def chunkListAux (n : Nat) : Nat → List Packet → List (List Packet)
  | 0, _ => []
  | fuel + 1, l =>
    if l = [] ∨ n = 0 then []
    else l.take n :: chunkListAux n fuel (l.drop n)

/-- Rust slice::chunks n: successive sub-lists of length n in order, the last one
possibly shorter. The n = 0 case is a panic in Rust; callers guard it (see
forwardProjection?), and the guard branch here is never reached under that guard. -/
def chunkList (n : Nat) (l : List Packet) : List (List Packet) :=
  chunkListAux n l.length l

/-- The projection-and-chunking prefix of RelayerImpl::forward_packets: the early
return gives no sub-batches when nothing survives the projection; otherwise the
Rust code computes packets.len() / validator_packet_batch_size (division by zero
panics) and chunks(validator_packet_batch_size) (chunk size zero panics), both
modelled as none when the batch size is 0. -/
def forwardProjection? (ofac : List Pubkey) (lut : Pubkey → List Pubkey)
    (banking_packet_batch : List (List Packet))
    (validator_packet_batch_size : Nat) : Option (List (List Packet)) :=
  let packets := projectPackets ofac lut banking_packet_batch
  if packets.isEmpty then some []
  else if validator_packet_batch_size = 0 then none
  else some (chunkList validator_packet_batch_size packets)

/-- A message on a subscriber stream (the msg field of SubscribePacketsResponse):
a heartbeat carrying the count, or a packet sub-batch. The header timestamp
carries no information any claim is about. -/
inductive RelayerMsg where
  | heartbeat (count : Nat)
  | batch (packets : List Packet)
deriving DecidableEq

/-- A bounded tokio mpsc channel as the event loop sees it through a Sender:
queued messages oldest first, the capacity, and whether the receiver is gone. -/
structure TokioChan where
  msgs : List RelayerMsg
  capacity : Nat
  closed : Bool
deriving DecidableEq

inductive TrySendKind where
  | ok
  | full
  | closed
deriving DecidableEq

/-- tokio Sender::try_send: Closed when the receiver has been dropped, Full when
the queue is at capacity, otherwise the message is enqueued. -/
def TokioChan.trySend (c : TokioChan) (m : RelayerMsg) : TrySendKind × TokioChan :=
  if c.closed then (TrySendKind.closed, c)
  else if c.capacity ≤ c.msgs.length then (TrySendKind.full, c)
  else (TrySendKind.ok, { c with msgs := c.msgs ++ [m] })

/-- Per-validator forwarding counters (struct PacketForwardStats). -/
structure PacketForwardStats where
  num_packets_forwarded : Nat
  num_packets_dropped : Nat
deriving DecidableEq

/-- The counters of RelayerMetrics the claims are about. The latency histograms
and channel-length gauges are pure telemetry never read by the logic and are not
modelled. -/
structure RelayerMetrics where
  num_added_connections : Nat
  num_removed_connections : Nat
  num_heartbeats : Nat
  num_try_send_channel_full : Nat
  packet_stats_per_validator : Pubkey → Option PacketForwardStats

/-- RelayerMetrics::new: every counter zero and no per-validator stats. The event
loop builds this value at start and rebuilds it on every metrics tick. -/
def RelayerMetrics.new : RelayerMetrics :=
  { num_added_connections := 0
    num_removed_connections := 0
    num_heartbeats := 0
    num_try_send_channel_full := 0
    packet_stats_per_validator := fun _ => none }

/-- RelayerMetrics::increment_packets_forwarded: saturating u64 add on the entry,
inserting a fresh entry when absent. -/
def RelayerMetrics.incForwarded (m : RelayerMetrics) (pk : Pubkey) (n : Nat) :
    RelayerMetrics :=
  { m with packet_stats_per_validator := fun q =>
      if q = pk then
        match m.packet_stats_per_validator pk with
        | some s => some { s with num_packets_forwarded := satAdd64 s.num_packets_forwarded n }
        | none => some { num_packets_forwarded := n, num_packets_dropped := 0 }
      else m.packet_stats_per_validator q }

/-- RelayerMetrics::increment_packets_dropped: saturating u64 add on the entry,
inserting a fresh entry when absent. -/
def RelayerMetrics.incDropped (m : RelayerMetrics) (pk : Pubkey) (n : Nat) :
    RelayerMetrics :=
  { m with packet_stats_per_validator := fun q =>
      if q = pk then
        match m.packet_stats_per_validator pk with
        | some s => some { s with num_packets_dropped := satAdd64 s.num_packets_dropped n }
        | none => some { num_packets_forwarded := 0, num_packets_dropped := n }
      else m.packet_stats_per_validator q }

/-- Forwarded-packet count for one validator, 0 when no entry exists. -/
def RelayerMetrics.forwardedCount (m : RelayerMetrics) (pk : Pubkey) : Nat :=
  match m.packet_stats_per_validator pk with
  | some s => s.num_packets_forwarded
  | none => 0

/-- Dropped-packet count for one validator, 0 when no entry exists. -/
def RelayerMetrics.droppedCount (m : RelayerMetrics) (pk : Pubkey) : Nat :=
  match m.packet_stats_per_validator pk with
  | some s => s.num_packets_dropped
  | none => 0

/-- Heap of per-subscriber channels indexed by channel id; cloned senders held by
the registry and by the local senders list alias the same entry. -/
abbrev ChanHeap := Nat → TokioChan

/-- Point update of a channel heap. -/
def ChanHeap.set (h : ChanHeap) (i : Nat) (c : TokioChan) : ChanHeap :=
  fun j => if j = i then c else h j

/-- The iteration inside RelayerImpl::handle_heartbeat: try_send a heartbeat whose
count is the current num_heartbeats to each subscriber in order; Closed collects
the pubkey (and continues), Full bumps num_try_send_channel_full (and continues),
Ok enqueues. num_heartbeats itself is not modified during the iteration. -/
def heartbeatLoop (subs : List (Pubkey × Nat)) (heap : ChanHeap) (m : RelayerMetrics) :
    List Pubkey × ChanHeap × RelayerMetrics :=
  match subs with
  | [] => ([], heap, m)
  | (pk, id) :: rest =>
    match (heap id).trySend (RelayerMsg.heartbeat m.num_heartbeats) with
    | (TrySendKind.ok, c) => heartbeatLoop rest (heap.set id c) m
    | (TrySendKind.full, _) =>
      heartbeatLoop rest heap
        { m with num_try_send_channel_full := m.num_try_send_channel_full + 1 }
    | (TrySendKind.closed, _) =>
      let r := heartbeatLoop rest heap m
      (pk :: r.1, r.2)

/-- RelayerImpl::handle_heartbeat: run the send iteration over the registry, then
increment num_heartbeats exactly once; returns the pubkeys whose channel was
observed Closed. -/
def handleHeartbeat (subs : List (Pubkey × Nat)) (heap : ChanHeap) (m : RelayerMetrics) :
    List Pubkey × ChanHeap × RelayerMetrics :=
  let r := heartbeatLoop subs heap m
  (r.1, r.2.1, { r.2.2 with num_heartbeats := r.2.2.num_heartbeats + 1 })

/-- RelayerImpl::drop_connections: bump num_removed_connections by the length of
the drop list, then remove each listed pubkey from the registry (dropping the
stored sender). -/
def dropConnections (disconnected : List Pubkey) (registry : List (Pubkey × Nat))
    (m : RelayerMetrics) : List (Pubkey × Nat) × RelayerMetrics :=
  (registry.filter (fun e => !disconnected.contains e.1),
   { m with num_removed_connections := m.num_removed_connections + disconnected.length })

/-- The inner subscriber loop of RelayerImpl::forward_packets for one sub-batch:
try_send the sub-batch to each (pubkey, sender) in order; Ok bumps the forwarded
counter by the sub-batch size, Full bumps the dropped counter by the sub-batch
size and continues, and the first Closed appends the pubkey to the failed list
and breaks out of the loop. -/
def sendBatchLoop (chunk : List Packet) (senders : List (Pubkey × Nat))
    (heap : ChanHeap) (m : RelayerMetrics) (failed : List Pubkey) :
    ChanHeap × RelayerMetrics × List Pubkey :=
  match senders with
  | [] => (heap, m, failed)
  | (pk, id) :: rest =>
    match (heap id).trySend (RelayerMsg.batch chunk) with
    | (TrySendKind.ok, c) =>
      sendBatchLoop chunk rest (heap.set id c) (m.incForwarded pk chunk.length) failed
    | (TrySendKind.full, _) =>
      sendBatchLoop chunk rest heap (m.incDropped pk chunk.length) failed
    | (TrySendKind.closed, _) => (heap, m, failed ++ [pk])

/-- The outer loop of RelayerImpl::forward_packets over the sub-batches: empty
sub-batches are skipped, each non-empty one is offered to the full senders list. -/
def forwardBatchesLoop (chunks : List (List Packet)) (senders : List (Pubkey × Nat))
    (heap : ChanHeap) (m : RelayerMetrics) (failed : List Pubkey) :
    ChanHeap × RelayerMetrics × List Pubkey :=
  match chunks with
  | [] => (heap, m, failed)
  | chunk :: rest =>
    if chunk.isEmpty then forwardBatchesLoop rest senders heap m failed
    else
      let r := sendBatchLoop chunk senders heap m failed
      forwardBatchesLoop rest senders r.1 r.2.1 r.2.2

/-- RelayerImpl::forward_packets: project and chunk the incoming batches, then
fan out to the senders list; none where the Rust code panics
(validator_packet_batch_size = 0 with at least one surviving packet). -/
def forwardPackets (ofac : List Pubkey) (lut : Pubkey → List Pubkey)
    (banking_packet_batch : List (List Packet)) (validator_packet_batch_size : Nat)
    (senders : List (Pubkey × Nat)) (heap : ChanHeap) (m : RelayerMetrics) :
    Option (ChanHeap × RelayerMetrics × List Pubkey) :=
  match forwardProjection? ofac lut banking_packet_batch validator_packet_batch_size with
  | none => none
  | some chunks => some (forwardBatchesLoop chunks senders heap m [])

/-- RelayerImpl::handle_subscription: a vacant registry entry inserts the new
sender and bumps num_added_connections; an occupied entry is overwritten with the
new sender (duplicate subscription; the old sender is dropped). -/
def handleSubscription (pk : Pubkey) (id : Nat) (registry : List (Pubkey × Nat))
    (m : RelayerMetrics) : List (Pubkey × Nat) × RelayerMetrics :=
  if registry.any (fun e => e.1 = pk) then
    (registry.map (fun e => if e.1 = pk then (pk, id) else e), m)
  else
    (registry ++ [(pk, id)],
     { m with num_added_connections := m.num_added_connections + 1 })

/-- solana_sdk::clock::NUM_CONSECUTIVE_LEADER_SLOTS. -/
def NUM_CONSECUTIVE_LEADER_SLOTS : Nat := 4

/-- LEADER_LOOKAHEAD constant of RelayerImpl::new. -/
def LEADER_LOOKAHEAD : Nat := 2

/-- Static configuration of the event loop. -/
structure RelayerConfig where
  forward_all : Bool
  schedule : Nat → Option Pubkey
  ofac_addresses : List Pubkey
  lut : Pubkey → List Pubkey
  validator_packet_batch_size : Nat

/-- HashMap::get on the subscription registry. -/
def registryGet (registry : List (Pubkey × Nat)) (pk : Pubkey) : Option Nat :=
  (registry.find? (fun e => e.1 = pk)).map (fun e => e.2)

/-- The slot_leaders branch of the senders update: for each slot of
[new_slot, new_slot + LEADER_LOOKAHEAD * NUM_CONSECUTIVE_LEADER_SLOTS), look the
slot up in the leader schedule and keep the leaders that have a subscription,
paired with their sender. -/
def scheduleSenders (schedule : Nat → Option Pubkey) (registry : List (Pubkey × Nat))
    (new_slot : Nat) : List (Pubkey × Nat) :=
  (List.range' new_slot (LEADER_LOOKAHEAD * NUM_CONSECUTIVE_LEADER_SLOTS)).filterMap
    (fun s => (schedule s).bind
      (fun pk => (registryGet registry pk).map (fun id => (pk, id))))

/-- The senders-update block at the bottom of run_event_loop (lines 524-545): when
the observed highest slot differs from the last observed slot, remember the new
slot and recompute the local senders list — every subscriber when forward_all,
otherwise the scheduled leaders of the upcoming slots that have a subscription;
when the slot is unchanged nothing is touched. -/
def updateSenders (cfg : RelayerConfig) (registry : List (Pubkey × Nat))
    (last_observed_slot new_slot : Nat) (senders : List (Pubkey × Nat)) :
    Nat × List (Pubkey × Nat) :=
  if last_observed_slot ≠ new_slot then
    (new_slot,
     if cfg.forward_all then registry
     else scheduleSenders cfg.schedule registry new_slot)
  else (last_observed_slot, senders)

/-- Health state published by the health manager. -/
inductive HealthState where
  | Healthy
  | Unhealthy
deriving DecidableEq

/-- State carried across iterations of run_event_loop, together with the channel
heap the registry and senders index into. -/
structure LoopState where
  heap : ChanHeap
  next_chan_id : Nat
  registry : List (Pubkey × Nat)
  senders : List (Pubkey × Nat)
  last_observed_slot : Nat
  metrics : RelayerMetrics

/-- The select arm fired in one iteration of run_event_loop. -/
inductive LoopEvent where
  | packetBatches (banking_packet_batch : List (List Packet))
  | subscription (pk : Pubkey)
  | heartbeatTick (health : HealthState)
  | metricsTick

/-- RelayerImpl::SUBSCRIBER_QUEUE_CAPACITY. -/
def SUBSCRIBER_QUEUE_CAPACITY : Nat := 50000

/-- The select-arm bodies of run_event_loop. The packet arm forwards and then
drops the failed pubkeys; the subscription arm allocates the fresh channel the
RPC side created and registers it; the heartbeat arm heartbeats when Healthy and
marks every subscriber for drop when Unhealthy, then drops the marked pubkeys;
the metrics tick reports and replaces relayer_metrics with RelayerMetrics::new,
resetting every counter including num_heartbeats. Returns none where
forward_packets panics. -/
def armStep (cfg : RelayerConfig) (st : LoopState) (ev : LoopEvent) : Option LoopState :=
  match ev with
  | LoopEvent.packetBatches batches =>
    match forwardPackets cfg.ofac_addresses cfg.lut batches
        cfg.validator_packet_batch_size st.senders st.heap st.metrics with
    | none => none
    | some r =>
      let d := dropConnections r.2.2 st.registry r.2.1
      some { st with heap := r.1, registry := d.1, metrics := d.2 }
  | LoopEvent.subscription pk =>
    let id := st.next_chan_id
    let heap := st.heap.set id
      { msgs := [], capacity := SUBSCRIBER_QUEUE_CAPACITY, closed := false }
    let r := handleSubscription pk id st.registry st.metrics
    some { st with heap := heap, next_chan_id := id + 1, registry := r.1, metrics := r.2 }
  | LoopEvent.heartbeatTick health =>
    match health with
    | HealthState.Healthy =>
      let r := handleHeartbeat st.registry st.heap st.metrics
      let d := dropConnections r.1 st.registry r.2.2
      some { st with heap := r.2.1, registry := d.1, metrics := d.2 }
    | HealthState.Unhealthy =>
      let d := dropConnections (st.registry.map Prod.fst) st.registry st.metrics
      some { st with registry := d.1, metrics := d.2 }
  | LoopEvent.metricsTick => some { st with metrics := RelayerMetrics.new }

/-- One iteration of run_event_loop: process the selected arm, then read the
highest-slot atomic (its value at this iteration is new_slot) and run the senders
update. Returns none where forward_packets panics. -/
def loopStep (cfg : RelayerConfig) (st : LoopState) (ev : LoopEvent) (new_slot : Nat) :
    Option LoopState :=
  match armStep cfg st ev with
  | none => none
  | some st2 =>
    let u := updateSenders cfg st2.registry st2.last_observed_slot new_slot st2.senders
    some { st2 with last_observed_slot := u.1, senders := u.2 }

/-- A step of a system trace: either one event-loop iteration, or the environment
action of a subscriber dropping its stream receiver, which closes the channel the
registry currently holds for that pubkey. -/
inductive TraceStep where
  | loop (ev : LoopEvent) (new_slot : Nat)
  | closeChan (pk : Pubkey)

/-- Environment action: the subscriber at pk hangs up, closing its channel. -/
def envCloseChan (st : LoopState) (pk : Pubkey) : LoopState :=
  match registryGet st.registry pk with
  | none => st
  | some id => { st with heap := st.heap.set id { st.heap id with closed := true } }

/-- Run a trace of steps from a state; none where the event loop panics. -/
def runTrace (cfg : RelayerConfig) (st : LoopState) : List TraceStep → Option LoopState
  | [] => some st
  | TraceStep.loop ev s :: rest =>
    match loopStep cfg st ev s with
    | none => none
    | some st2 => runTrace cfg st2 rest
  | TraceStep.closeChan pk :: rest => runTrace cfg (envCloseChan st pk) rest

/-- A channel id no subscription has used yet: closed with no queue. -/
def initChan : TokioChan := { msgs := [], capacity := 0, closed := true }

/-- The event-loop state at thread start: empty registry and senders, fresh
metrics, last observed slot as first loaded from the atomic (0 here). -/
def initState : LoopState :=
  { heap := fun _ => initChan
    next_chan_id := 0
    registry := []
    senders := []
    last_observed_slot := 0
    metrics := RelayerMetrics.new }

/-- The bounded crossbeam subscription channel as the RPC side sees it through its
Sender: queue length, capacity, and whether the receiver still exists. -/
structure CrossbeamChan where
  queued : Nat
  capacity : Nat
  connected : Bool
deriving DecidableEq

/-- crossbeam_channel::Sender::send on a bounded channel: it returns an error only
when the channel is disconnected (the receiver is gone); when the channel is full
it blocks until space frees and then succeeds. The blocking wait is abstracted
away; only the returned value and resulting queue are modelled. -/
def CrossbeamChan.send (c : CrossbeamChan) : Option CrossbeamChan :=
  if c.connected then some { c with queued := min (c.queued + 1) c.capacity } else none

/-- RelayerImpl::check_health: an internal-error status unless the health state is
Healthy. -/
def checkHealth (h : HealthState) : Except String Unit :=
  if h ≠ HealthState.Healthy then Except.error "relayer is unhealthy" else Except.ok ()

/-- RelayerImpl::subscribe_packets: check health, read the authenticated pubkey
from the request extensions, create the subscriber channel and send the
subscription on the bounded crossbeam channel; ok carries the updated
subscription channel and the pubkey (standing for the returned receiver stream). -/
def subscribePackets (health : HealthState) (pubkey : Option Pubkey)
    (subscription_sender : CrossbeamChan) : Except String (CrossbeamChan × Pubkey) :=
  match checkHealth health with
  | Except.error e => Except.error e
  | Except.ok _ =>
    match pubkey with
    | none => Except.error "internal error fetching public key"
    | some pk =>
      match subscription_sender.send with
      | some c => Except.ok (c, pk)
      | none => Except.error "internal error adding subscription"

/-- The admission-pool sizes Tpu::new passes to a spawn_server call. -/
structure QuicPoolArgs where
  max_staked_connections : Nat
  max_unstaked_connections : Nat
deriving DecidableEq

/-- Tpu::new, direct pool: each transactions_quic_sockets server is spawned with
staked pool max_staked and unstaked pool max_unstaked. -/
def tpuDirectPoolArgs (max_staked max_unstaked : Nat) : QuicPoolArgs :=
  { max_staked_connections := max_staked, max_unstaked_connections := max_unstaked }

/-- Tpu::new, forwards pool: each transactions_forwards_quic_sockets server is
spawned with staked pool max_staked.saturating_add(max_unstaked) and unstaked
pool 0. -/
def tpuForwardsPoolArgs (max_staked max_unstaked : Nat) : QuicPoolArgs :=
  { max_staked_connections := satAdd64 max_staked max_unstaked
    max_unstaked_connections := 0 }

/-- Boolean strict-increase check on a list of observed counts. -/
def strictlyIncreasing : List Nat → Bool
  | [] => true
  | [_] => true
  | a :: b :: rest => decide (a < b) && strictlyIncreasing (b :: rest)

/-- The heartbeat counts delivered on a subscriber channel, in order. -/
def heartbeatCounts (msgs : List RelayerMsg) : List Nat :=
  msgs.filterMap (fun m =>
    match m with
    | RelayerMsg.heartbeat c => some c
    | RelayerMsg.batch _ => none)

/-- Spec-side survival predicate of the projection, written from the words of the
spec: keep a packet iff it is not discarded and, when the denylist is non-empty,
it parses as a versioned transaction that is not OFAC-related. The C5 theorem
compares it with projectPackets, the definition taken from the code. -/
def survivesProjection (ofac : List Pubkey) (lut : Pubkey → List Pubkey)
    (p : Packet) : Bool :=
  !p.discard && (ofac.isEmpty ||
    match p.tx with
    | none => false
    | some tx => !is_tx_ofac_related tx ofac lut)

/-- A forward-all configuration with empty denylist and sub-batch size 1, used by
the concrete traces. -/
def exampleConfig : RelayerConfig :=
  { forward_all := true
    schedule := fun _ => none
    ofac_addresses := []
    lut := fun _ => []
    validator_packet_batch_size := 1 }

/-- Trace: subscriber 1 subscribes, then a heartbeat tick fires, then a metrics
tick, then a second heartbeat tick; the observed highest slot never advances. -/
def heartbeatResetTrace : List TraceStep :=
  [TraceStep.loop (LoopEvent.subscription 1) 0,
   TraceStep.loop (LoopEvent.heartbeatTick HealthState.Healthy) 0,
   TraceStep.loop LoopEvent.metricsTick 0,
   TraceStep.loop (LoopEvent.heartbeatTick HealthState.Healthy) 0]

/-- Trace: subscriber 1 subscribes, the observed slot advances to 1 (recomputing
the senders list), the subscriber hangs up, and a heartbeat tick evicts it from
the registry while the observed slot stays at 1. -/
def staleSendersTrace : List TraceStep :=
  [TraceStep.loop (LoopEvent.subscription 1) 0,
   TraceStep.loop LoopEvent.metricsTick 1,
   TraceStep.closeChan 1,
   TraceStep.loop (LoopEvent.heartbeatTick HealthState.Healthy) 1]

/-! Helper lemmas shared by the claim theorems. -/

theorem armStep_slot_senders (cfg : RelayerConfig) (st : LoopState) (ev : LoopEvent)
    (st2 : LoopState) (h : armStep cfg st ev = some st2) :
    st2.last_observed_slot = st.last_observed_slot ∧ st2.senders = st.senders := by
  cases ev with
  | packetBatches batches =>
    simp only [armStep] at h
    cases hf : forwardPackets cfg.ofac_addresses cfg.lut batches
        cfg.validator_packet_batch_size st.senders st.heap st.metrics with
    | none => rw [hf] at h; exact absurd h (by simp)
    | some r =>
      rw [hf] at h
      injection h with h
      subst h
      exact ⟨rfl, rfl⟩
  | subscription pk =>
    injection h with h
    subst h
    exact ⟨rfl, rfl⟩
  | heartbeatTick health =>
    cases health with
    | Healthy => injection h with h; subst h; exact ⟨rfl, rfl⟩
    | Unhealthy => injection h with h; subst h; exact ⟨rfl, rfl⟩
  | metricsTick =>
    injection h with h
    subst h
    exact ⟨rfl, rfl⟩

theorem loopStep_destruct (cfg : RelayerConfig) (st : LoopState) (ev : LoopEvent) (s : Nat)
    (st' : LoopState) (h : loopStep cfg st ev s = some st') :
    ∃ st2, armStep cfg st ev = some st2 ∧
      st' = { st2 with
        last_observed_slot := (updateSenders cfg st2.registry st.last_observed_slot s st.senders).1
        senders := (updateSenders cfg st2.registry st.last_observed_slot s st.senders).2 } := by
  unfold loopStep at h
  cases ha : armStep cfg st ev with
  | none => rw [ha] at h; exact absurd h (by simp)
  | some st2 =>
    rw [ha] at h
    obtain ⟨h1, h2⟩ := armStep_slot_senders cfg st ev st2 ha
    refine ⟨st2, rfl, ?_⟩
    injection h with h
    rw [← h, h1, h2]

theorem updateSenders_same (cfg : RelayerConfig) (reg : List (Pubkey × Nat)) (last : Nat)
    (senders : List (Pubkey × Nat)) :
    updateSenders cfg reg last last senders = (last, senders) := by
  simp [updateSenders]

theorem updateSenders_of_ne (cfg : RelayerConfig) (reg : List (Pubkey × Nat)) (last s : Nat)
    (senders : List (Pubkey × Nat)) (hne : last ≠ s) :
    updateSenders cfg reg last s senders =
      (s, if cfg.forward_all then reg else scheduleSenders cfg.schedule reg s) := by
  simp [updateSenders, hne]

theorem mem_scheduleSenders (schedule : Nat → Option Pubkey) (reg : List (Pubkey × Nat))
    (s : Nat) (pk : Pubkey) (id : Nat) :
    (pk, id) ∈ scheduleSenders schedule reg s ↔
      (∃ slot, s ≤ slot ∧ slot < s + LEADER_LOOKAHEAD * NUM_CONSECUTIVE_LEADER_SLOTS
        ∧ schedule slot = some pk) ∧ registryGet reg pk = some id := by
  unfold scheduleSenders
  rw [List.mem_filterMap]
  constructor
  · rintro ⟨sl, hsl, hf⟩
    rw [List.mem_range'_1] at hsl
    cases hsch : schedule sl with
    | none => rw [hsch] at hf; simp at hf
    | some pk0 =>
      rw [hsch] at hf
      simp only [Option.some_bind] at hf
      cases hg : registryGet reg pk0 with
      | none => rw [hg] at hf; simp at hf
      | some id0 =>
        rw [hg] at hf
        simp only [Option.map_some', Option.some_inj, Prod.mk.injEq] at hf
        obtain ⟨hpk, hid⟩ := hf
        subst hpk
        subst hid
        exact ⟨⟨sl, hsl.1, hsl.2, hsch⟩, hg⟩
  · rintro ⟨⟨sl, h1, h2, hsch⟩, hg⟩
    refine ⟨sl, List.mem_range'_1.mpr ⟨h1, h2⟩, ?_⟩
    rw [hsch]
    simp [hg]

theorem registryGet_mem (reg : List (Pubkey × Nat)) (pk : Pubkey) (id : Nat)
    (h : registryGet reg pk = some id) : pk ∈ reg.map Prod.fst := by
  unfold registryGet at h
  cases hf : reg.find? (fun e => e.1 = pk) with
  | none => rw [hf] at h; simp at h
  | some e =>
    have hmem := List.mem_of_find?_eq_some hf
    have hpk := List.find?_some hf
    simp only [decide_eq_true_eq] at hpk
    exact hpk ▸ List.mem_map_of_mem Prod.fst hmem

/-- C1 (code bug): in the code the heartbeat count is
relayer_metrics.num_heartbeats, and the metrics tick replaces relayer_metrics
with RelayerMetrics::new. Over the trace subscribe, heartbeat tick, metrics
tick, heartbeat tick the single subscriber observes the counts [0, 0], which is
not strictly increasing; and a metrics tick resets a nonzero heartbeat counter
to zero, so the counter is modified outside the heartbeat arm. -/
theorem c1_heartbeat_count_reset_by_metrics_tick :
    (runTrace exampleConfig initState heartbeatResetTrace).map
      (fun st => heartbeatCounts (st.heap 0).msgs) = some [0, 0]
    ∧ strictlyIncreasing [0, 0] = false
    ∧ (loopStep exampleConfig
        { initState with metrics := { RelayerMetrics.new with num_heartbeats := 5 } }
        LoopEvent.metricsTick 0).map (fun st => st.metrics.num_heartbeats) = some 0 := by
  exact ⟨by decide, rfl, by decide⟩

/-- C2 (counterexample): after the reachable trace staleSendersTrace the senders
list (the ForwardingSet) still holds pubkey 1 while the registry is empty, so
the ForwardingSet is not a subset of the current subscribers at every reachable
state of the event loop. -/
theorem c2_counterexample_stale_forwarding_set :
    (runTrace exampleConfig initState staleSendersTrace).map
      (fun st => (st.senders.map Prod.fst, st.registry)) = some ([1], [])
    ∧ (runTrace exampleConfig initState staleSendersTrace).map
      (fun st => st.senders.all (fun e => st.registry.any (fun r => r.1 = e.1)))
      = some false := by
  exact ⟨by decide, by decide⟩

/-- C2 (amended): immediately after any event-loop iteration in which the
observed slot differed from the last observed slot — the iterations that
recompute the ForwardingSet — every identity in the senders list is present in
the subscriber registry. Between recomputations the list is not updated and may
retain identities already removed from the registry (see the counterexample). -/
theorem c2_forwarding_set_subset_after_recompute (cfg : RelayerConfig) (st : LoopState)
    (ev : LoopEvent) (s : Nat) (st' : LoopState) (h : loopStep cfg st ev s = some st')
    (hs : s ≠ st.last_observed_slot) :
    ∀ pk id, (pk, id) ∈ st'.senders → pk ∈ st'.registry.map Prod.fst := by
  obtain ⟨st2, ha, hst⟩ := loopStep_destruct cfg st ev s st' h
  subst hst
  intro pk id hmem
  simp only at hmem ⊢
  rw [updateSenders_of_ne cfg st2.registry st.last_observed_slot s st.senders
    (Ne.symm hs)] at hmem
  by_cases hfa : cfg.forward_all
  · simp only [hfa, if_true] at hmem
    exact List.mem_map.mpr ⟨(pk, id), hmem, rfl⟩
  · simp only [hfa, if_false] at hmem
    exact registryGet_mem st2.registry pk id
      ((mem_scheduleSenders cfg.schedule st2.registry s pk id).mp hmem).2

/-- C3 (counterexample): with a full but still connected subscription channel
(queued = capacity = 5) the RPC-side send succeeds (after blocking) and
subscribe_packets returns the stream, not an internal-error status, so a full
channel does not make the send fail. -/
theorem c3_counterexample_full_channel_send_succeeds :
    (CrossbeamChan.mk 5 5 true).capacity ≤ (CrossbeamChan.mk 5 5 true).queued
    ∧ subscribePackets HealthState.Healthy (some 1) (CrossbeamChan.mk 5 5 true)
        = Except.ok (CrossbeamChan.mk 5 5 true, 1) := by
  exact ⟨by decide, rfl⟩

/-- C3 (amended): the RPC-side send on the bounded subscription channel fails —
and subscribe_packets returns the internal-error status for adding a
subscription — exactly when the channel is disconnected (the event loop is
gone); when the channel is full but connected the send blocks until space frees
and the RPC succeeds. -/
theorem c3_subscribe_send_fails_only_on_disconnect (pk : Pubkey) (ch : CrossbeamChan) :
    (subscribePackets HealthState.Healthy (some pk) ch
        = Except.error "internal error adding subscription" ↔ ch.connected = false)
    ∧ (ch.connected = true →
        subscribePackets HealthState.Healthy (some pk) ch
          = Except.ok ({ ch with queued := min (ch.queued + 1) ch.capacity }, pk)) := by
  unfold subscribePackets checkHealth CrossbeamChan.send
  cases hc : ch.connected <;> simp [hc]

/-- Witness for the amended C3 theorem at a connected channel with room. -/
theorem c3_subscribe_send_fails_only_on_disconnect_witness :
    subscribePackets HealthState.Healthy (some 7) (CrossbeamChan.mk 2 5 true)
      = Except.ok (CrossbeamChan.mk 3 5 true, 7) :=
  (c3_subscribe_send_fails_only_on_disconnect 7 (CrossbeamChan.mk 2 5 true)).2 rfl

/-- C8 (counterexample): with max_staked = 1 and max_unstaked = 2 the forwards
pool is spawned with a staked pool of size 3 (the saturating sum), not
max_staked = 1, refuting the claim that both pools use staked size max_staked. -/
theorem c8_counterexample_forwards_staked_size :
    (tpuForwardsPoolArgs 1 2).max_staked_connections = 3
    ∧ (tpuForwardsPoolArgs 1 2).max_staked_connections ≠ 1 := by
  exact ⟨by decide, by decide⟩

/-- C8 (amended): the direct pool is spawned with staked size max_staked and
unstaked size max_unstaked; the forwards pool is spawned with unstaked size 0 —
so no unstaked peer is admitted on the forwards sockets — and staked size the
saturating sum of max_staked and max_unstaked. -/
theorem c8_pool_sizes (max_staked max_unstaked : Nat)
    (h : max_staked + max_unstaked ≤ U64_MAX) :
    tpuDirectPoolArgs max_staked max_unstaked
        = { max_staked_connections := max_staked, max_unstaked_connections := max_unstaked }
    ∧ (tpuForwardsPoolArgs max_staked max_unstaked).max_unstaked_connections = 0
    ∧ (tpuForwardsPoolArgs max_staked max_unstaked).max_staked_connections
        = max_staked + max_unstaked := by
  refine ⟨rfl, rfl, ?_⟩
  simp [tpuForwardsPoolArgs, satAdd64, Nat.min_eq_left h]

/-- Witness for the amended C8 theorem at pool sizes 10 and 20. -/
theorem c8_pool_sizes_witness :
    (10 : Nat) + 20 ≤ U64_MAX
    ∧ (tpuForwardsPoolArgs 10 20).max_staked_connections = 30 :=
  ⟨by decide, (c8_pool_sizes 10 20 (by decide)).2.2⟩

theorem chunkListAux_spec (n : Nat) (hn : 0 < n) :
    ∀ (fuel : Nat) (l : List Packet), l.length ≤ fuel →
      (chunkListAux n fuel l).flatten = l
      ∧ (∀ c ∈ chunkListAux n fuel l, c ≠ [] ∧ c.length ≤ n)
      ∧ (∀ c ∈ (chunkListAux n fuel l).dropLast, c.length = n) := by
  intro fuel
  induction fuel with
  | zero =>
    intro l hl
    have hnil : l = [] := List.length_eq_zero.mp (Nat.le_zero.mp hl)
    subst hnil
    simp [chunkListAux]
  | succ fuel ih =>
    intro l hl
    by_cases hc : l = [] ∨ n = 0
    · have hnil : l = [] := by
        rcases hc with h | h
        · exact h
        · exact absurd h (Nat.pos_iff_ne_zero.mp hn)
      subst hnil
      simp [chunkListAux]
    · push_neg at hc
      have hstep : chunkListAux n (fuel + 1) l
          = l.take n :: chunkListAux n fuel (l.drop n) := by
        simp only [chunkListAux]
        rw [if_neg (by push_neg; exact hc)]
      have hdl : (l.drop n).length ≤ fuel := by
        rw [List.length_drop]
        have := Nat.pos_iff_ne_zero.mpr hc.2
        omega
      obtain ⟨ih1, ih2, ih3⟩ := ih (l.drop n) hdl
      rw [hstep]
      refine ⟨?_, ?_, ?_⟩
      · rw [List.flatten_cons, ih1, List.take_append_drop]
      · intro c hcm
        rcases List.mem_cons.mp hcm with h | h
        · subst h
          refine ⟨?_, ?_⟩
          · rw [Ne, List.take_eq_nil_iff]
            rintro (h | h)
            · exact hc.2 h
            · exact hc.1 h
          · rw [List.length_take]
            exact min_le_left n l.length
        · exact ih2 c h
      · intro c hcm
        cases hrec : chunkListAux n fuel (l.drop n) with
        | nil =>
          rw [hrec] at hcm
          simp at hcm
        | cons b t =>
          rw [hrec] at hcm
          rw [List.dropLast_cons₂] at hcm
          rcases List.mem_cons.mp hcm with h | h
          · subst h
            have hlt : n < l.length := by
              by_contra hge
              push_neg at hge
              have hdn : l.drop n = [] := List.drop_eq_nil_of_le hge
              rw [hdn] at hrec
              cases fuel with
              | zero => simp [chunkListAux] at hrec
              | succ f => simp [chunkListAux] at hrec
            rw [List.length_take]
            exact Nat.min_eq_left (Nat.le_of_lt hlt)
          · rw [← hrec] at h
            exact ih3 c h

theorem chunkList_spec (n : Nat) (hn : 0 < n) (l : List Packet) :
    (chunkList n l).flatten = l
    ∧ (∀ c ∈ chunkList n l, c ≠ [] ∧ c.length ≤ n)
    ∧ (∀ c ∈ (chunkList n l).dropLast, c.length = n) :=
  chunkListAux_spec n hn l.length l (le_refl _)

theorem filterMap_guard (c : Packet → Bool) (f : Packet → Option Packet)
    (hf : ∀ p, f p = if c p then some p else none) :
    ∀ l : List Packet, l.filterMap f = l.filter c := by
  intro l
  induction l with
  | nil => simp
  | cons hd tl ih =>
    cases hc : c hd with
    | true => simp [List.filterMap_cons, List.filter_cons, hf, hc, ih]
    | false => simp [List.filterMap_cons, List.filter_cons, hf, hc, ih]

theorem flatMap_filter_comm (q : Packet → Bool) (batches : List (List Packet)) :
    batches.flatMap (fun b => b.filter q) = (batches.flatMap (fun b => b)).filter q := by
  induction batches with
  | nil => simp
  | cons hd tl ih => simp [List.filter_append, ih]

theorem projectPackets_eq_filter (ofac : List Pubkey) (lut : Pubkey → List Pubkey)
    (batches : List (List Packet)) :
    projectPackets ofac lut batches
      = (batches.flatMap (fun b => b)).filter (survivesProjection ofac lut) := by
  have hf1 : ∀ p : Packet,
      (if ofac.isEmpty then some p
       else
         match p.tx with
         | none => none
         | some tx => if is_tx_ofac_related tx ofac lut then none else some p)
      = if (if ofac.isEmpty then true
            else
              match p.tx with
              | none => false
              | some tx => !is_tx_ofac_related tx ofac lut) then some p else none := by
    intro p
    by_cases ho : ofac.isEmpty
    · simp [ho]
    · cases htx : p.tx with
      | none => simp [ho]
      | some tx => cases hr : is_tx_ofac_related tx ofac lut <;> simp [ho, hr]
  have hf2 : ∀ p : Packet,
      packet_to_proto_packet p = if !p.discard then some p else none := by
    intro p
    unfold packet_to_proto_packet
    cases hd : p.discard <;> simp
  unfold projectPackets
  rw [flatMap_filter_comm, filterMap_guard _ _ hf1, filterMap_guard _ _ hf2,
    List.filter_filter, List.filter_filter]
  apply List.filter_congr
  intro p _
  cases hd : p.discard <;> by_cases ho : ofac.isEmpty <;> cases htx : p.tx <;>
    simp [survivesProjection, hd, ho, htx]

/-- C5: the packets projected for forwarding are exactly the non-discarded input
packets that, when the denylist is non-empty, parse as a versioned transaction
with no denylisted signer, writable, readable or lookup-table-expanded account
(the code-side projection equals the spec-side filter); the survivors are
chunked in order into sub-batches of size validator_packet_batch_size with only
the last sub-batch possibly smaller and none empty; and an empty sub-batch is
skipped by the emission loop, so it reaches no subscriber. -/
theorem c5_projection_and_chunking (ofac : List Pubkey) (lut : Pubkey → List Pubkey)
    (batches : List (List Packet)) (n : Nat) (hn : 0 < n) :
    projectPackets ofac lut batches
      = (batches.flatMap (fun b => b)).filter (survivesProjection ofac lut)
    ∧ (∀ chunks, forwardProjection? ofac lut batches n = some chunks →
        chunks.flatten = projectPackets ofac lut batches
        ∧ (∀ c ∈ chunks, c ≠ [] ∧ c.length ≤ n)
        ∧ (∀ c ∈ chunks.dropLast, c.length = n))
    ∧ (∀ chunk chunks senders heap m failed, chunk.isEmpty = true →
        forwardBatchesLoop (chunk :: chunks) senders heap m failed
          = forwardBatchesLoop chunks senders heap m failed) := by
  refine ⟨projectPackets_eq_filter ofac lut batches, ?_, ?_⟩
  · intro chunks hc
    simp only [forwardProjection?] at hc
    by_cases he : (projectPackets ofac lut batches).isEmpty
    · rw [if_pos he] at hc
      injection hc with hc
      subst hc
      rw [List.isEmpty_iff] at he
      simp [he]
    · rw [if_neg he, if_neg (Nat.pos_iff_ne_zero.mp hn)] at hc
      injection hc with hc
      subst hc
      exact chunkList_spec n hn (projectPackets ofac lut batches)
  · intro chunk chunks senders heap m failed he
    simp only [forwardBatchesLoop]
    rw [if_pos he]

/-- Witness for C5 at three surviving packets and sub-batch size 2: projection
keeps all three and the chunks are a pair then a singleton. -/
theorem c5_projection_and_chunking_witness :
    forwardProjection? [] (fun _ => []) [[Packet.mk false none, Packet.mk false none],
        [Packet.mk false none]] 2
      = some [[Packet.mk false none, Packet.mk false none], [Packet.mk false none]]
    ∧ ([[Packet.mk false none, Packet.mk false none],
        [Packet.mk false none]] : List (List Packet)).flatten
      = projectPackets [] (fun _ => []) [[Packet.mk false none, Packet.mk false none],
        [Packet.mk false none]] := by
  refine ⟨by decide, ?_⟩
  exact ((c5_projection_and_chunking [] (fun _ => [])
    [[Packet.mk false none, Packet.mk false none], [Packet.mk false none]] 2
    (by decide)).2.1 _ (by decide)).1

/-- C6: the ForwardingSet is recomputed exactly when the observed highest slot
differs from the last observed slot — never per batch: when the slot is
unchanged the senders list and remembered slot are untouched whatever arm fired;
when it changed, the new list is every connected subscriber under forward_all,
and otherwise exactly the scheduled leaders of the slots in
[slot, slot + LEADER_LOOKAHEAD * NUM_CONSECUTIVE_LEADER_SLOTS) that are
currently subscribed, paired with their registered sender. -/
theorem c6_forwarding_set_recompute (cfg : RelayerConfig) (st : LoopState)
    (ev : LoopEvent) (s : Nat) (st' : LoopState) (h : loopStep cfg st ev s = some st') :
    (s = st.last_observed_slot →
      st'.senders = st.senders ∧ st'.last_observed_slot = st.last_observed_slot)
    ∧ (s ≠ st.last_observed_slot →
      st'.last_observed_slot = s
      ∧ (cfg.forward_all = true → st'.senders = st'.registry)
      ∧ (cfg.forward_all = false → ∀ pk id, ((pk, id) ∈ st'.senders ↔
          ((∃ slot, s ≤ slot ∧ slot < s + LEADER_LOOKAHEAD * NUM_CONSECUTIVE_LEADER_SLOTS
            ∧ cfg.schedule slot = some pk) ∧ registryGet st'.registry pk = some id)))) := by
  obtain ⟨st2, ha, hst⟩ := loopStep_destruct cfg st ev s st' h
  subst hst
  constructor
  · intro hs
    subst hs
    simp [updateSenders_same]
  · intro hs
    have hrw := updateSenders_of_ne cfg st2.registry st.last_observed_slot s st.senders
      (Ne.symm hs)
    refine ⟨?_, ?_, ?_⟩
    · show (updateSenders cfg st2.registry st.last_observed_slot s st.senders).1 = s
      rw [hrw]
    · intro hfa
      show (updateSenders cfg st2.registry st.last_observed_slot s st.senders).2
        = st2.registry
      rw [hrw, if_pos hfa]
    · intro hfa pk id
      show (pk, id) ∈ (updateSenders cfg st2.registry st.last_observed_slot s st.senders).2
        ↔ _
      rw [hrw, if_neg (by simp [hfa])]
      exact mem_scheduleSenders cfg.schedule st2.registry s pk id

/-- Witness for C6: a slot advance to 10 under a schedule making subscriber 1 the
leader of slot 10 puts exactly (1, its sender) into the recomputed senders list. -/
theorem c6_forwarding_set_recompute_witness :
    ((1 : Pubkey), (0 : Nat)) ∈
      ({ initState with registry := [(1, 0)], senders := [(1, 0)], last_observed_slot := 10 } : LoopState).senders :=
  (((c6_forwarding_set_recompute
      { forward_all := false
        schedule := fun s => if s = 10 then some 1 else none
        ofac_addresses := []
        lut := fun _ => []
        validator_packet_batch_size := 1 }
      { initState with registry := [(1, 0)] } LoopEvent.metricsTick 10
      { initState with registry := [(1, 0)], senders := [(1, 0)], last_observed_slot := 10 }
      rfl).2 (by decide)).2.2 rfl 1 0).mpr
    ⟨⟨10, by decide, by decide, rfl⟩, rfl⟩

/-- Witness for the amended C2 theorem: after a recomputation at slot 5 with
subscriber 1 registered, identity 1 of the senders list is in the registry. -/
theorem c2_forwarding_set_subset_after_recompute_witness :
    (1 : Pubkey) ∈ ([((1 : Pubkey), (0 : Nat))]).map Prod.fst :=
  c2_forwarding_set_subset_after_recompute exampleConfig
    { initState with registry := [(1, 0)] } LoopEvent.metricsTick 5
    { initState with registry := [(1, 0)], senders := [(1, 0)], last_observed_slot := 5 }
    rfl (by decide) 1 0 (by simp)

/-- C7: when the health state is Unhealthy, subscribe_packets answers every
caller with the internal status relayer is unhealthy, and a heartbeat tick marks
every currently registered subscriber for drop, leaving the registry empty (each
removed entry releases its sender, ending the stream). -/
theorem c7_unhealthy_gating :
    (∀ (pk : Option Pubkey) (ch : CrossbeamChan),
        subscribePackets HealthState.Unhealthy pk ch
          = Except.error "relayer is unhealthy")
    ∧ (∀ (cfg : RelayerConfig) (st : LoopState) (s : Nat) (st' : LoopState),
        loopStep cfg st (LoopEvent.heartbeatTick HealthState.Unhealthy) s = some st' →
        st'.registry = []) := by
  constructor
  · intro pk ch
    rfl
  · intro cfg st s st' h
    obtain ⟨st2, ha, hst⟩ := loopStep_destruct cfg st _ s st' h
    subst hst
    simp only [armStep] at ha
    injection ha with ha
    rw [← ha]
    simp only [dropConnections]
    rw [List.filter_eq_nil_iff]
    intro e he
    simp only [Bool.not_eq_true', Bool.not_eq_false]
    exact List.elem_eq_true_of_mem (List.mem_map_of_mem Prod.fst he)

/-- Witness for C7 at a registry holding subscriber 1: the subscribe is refused
and the heartbeat tick empties the registry. -/
theorem c7_unhealthy_gating_witness :
    subscribePackets HealthState.Unhealthy (some 1) (CrossbeamChan.mk 0 5 true)
      = Except.error "relayer is unhealthy"
    ∧ ({ initState with
          metrics := { RelayerMetrics.new with num_removed_connections := 1 } }
        : LoopState).registry = [] :=
  ⟨c7_unhealthy_gating.1 (some 1) (CrossbeamChan.mk 0 5 true),
   c7_unhealthy_gating.2 exampleConfig { initState with registry := [(1, 0)] } 0
     { initState with
        metrics := { RelayerMetrics.new with num_removed_connections := 1 } } rfl⟩

/-- C9: a non-discarded packet that does not deserialize as a versioned
transaction is dropped by the projection exactly when the denylist is non-empty:
with a non-empty denylist it is in no projected packet list and in no emitted
sub-batch, and with an empty denylist it is forwarded (kept by the projection). -/
theorem c9_unparseable_packet_depends_on_denylist (ofac : List Pubkey)
    (lut : Pubkey → List Pubkey) (batches : List (List Packet)) (p : Packet)
    (hd : p.discard = false) (htx : p.tx = none) :
    (ofac ≠ [] →
      p ∉ projectPackets ofac lut batches
      ∧ ∀ n chunks, forwardProjection? ofac lut batches n = some chunks →
          ∀ c ∈ chunks, p ∉ c)
    ∧ (ofac = [] → p ∈ batches.flatMap (fun b => b) →
        p ∈ projectPackets ofac lut batches) := by
  constructor
  · intro hne
    have hnotmem : p ∉ projectPackets ofac lut batches := by
      rw [projectPackets_eq_filter]
      intro hmem
      have := (List.mem_filter.mp hmem).2
      rw [survivesProjection] at this
      simp [hd, htx, List.isEmpty_iff, hne] at this
    refine ⟨hnotmem, ?_⟩
    intro n chunks hc c hcm hpc
    simp only [forwardProjection?] at hc
    by_cases he : (projectPackets ofac lut batches).isEmpty
    · rw [if_pos he] at hc
      injection hc with hc
      subst hc
      simp at hcm
    · rw [if_neg he] at hc
      by_cases hz : n = 0
      · rw [if_pos hz] at hc
        exact absurd hc (by simp)
      · rw [if_neg hz] at hc
        injection hc with hc
        subst hc
        have hflat := (chunkList_spec n (Nat.pos_of_ne_zero hz)
          (projectPackets ofac lut batches)).1
        exact hnotmem (hflat ▸ List.mem_flatten.mpr ⟨c, hcm, hpc⟩)
  · intro hemp hmem
    rw [projectPackets_eq_filter]
    refine List.mem_filter.mpr ⟨hmem, ?_⟩
    rw [survivesProjection]
    simp [hd, hemp]

/-- Witness for C9 at a concrete unparseable packet: dropped under denylist [9],
forwarded under the empty denylist. -/
theorem c9_unparseable_packet_depends_on_denylist_witness :
    Packet.mk false none ∉ projectPackets [9] (fun _ => []) [[Packet.mk false none]]
    ∧ Packet.mk false none ∈ projectPackets [] (fun _ => []) [[Packet.mk false none]] :=
  ⟨((c9_unparseable_packet_depends_on_denylist [9] (fun _ => [])
      [[Packet.mk false none]] (Packet.mk false none) rfl rfl).1 (by decide)).1,
   (c9_unparseable_packet_depends_on_denylist [] (fun _ => [])
      [[Packet.mk false none]] (Packet.mk false none) rfl rfl).2 rfl (by decide)⟩

/-- C10: forward_packets panics exactly off the guard validator_packet_batch_size
at least 1: with batch size 0 and at least one surviving packet it hits the
division by zero (and chunks(0)), modelled as none; with a positive batch size
it is total. -/
theorem c10_zero_batch_size_panics (ofac : List Pubkey) (lut : Pubkey → List Pubkey)
    (batches : List (List Packet)) :
    (projectPackets ofac lut batches ≠ [] →
      ∀ senders heap m, forwardPackets ofac lut batches 0 senders heap m = none)
    ∧ (∀ n, 0 < n → ∀ senders heap m,
        (forwardPackets ofac lut batches n senders heap m).isSome = true) := by
  constructor
  · intro hne senders heap m
    simp [forwardPackets, forwardProjection?, List.isEmpty_iff, hne]
  · intro n hn senders heap m
    by_cases he : projectPackets ofac lut batches = []
    · simp [forwardPackets, forwardProjection?, List.isEmpty_iff, he]
    · simp [forwardPackets, forwardProjection?, List.isEmpty_iff, he,
        Nat.pos_iff_ne_zero.mp hn]

/-- Witness for C10 at one surviving packet: batch size 0 panics (none), batch
size 1 is total. -/
theorem c10_zero_batch_size_panics_witness :
    forwardPackets [] (fun _ => []) [[Packet.mk false none]] 0 []
      (fun _ => initChan) RelayerMetrics.new = none
    ∧ (forwardPackets [] (fun _ => []) [[Packet.mk false none]] 1 []
      (fun _ => initChan) RelayerMetrics.new).isSome = true :=
  ⟨(c10_zero_batch_size_panics [] (fun _ => []) [[Packet.mk false none]]).1
      (by decide) [] (fun _ => initChan) RelayerMetrics.new,
   (c10_zero_batch_size_panics [] (fun _ => []) [[Packet.mk false none]]).2
      1 (by decide) [] (fun _ => initChan) RelayerMetrics.new⟩

theorem trySend_snd_closed (c : TokioChan) (msg : RelayerMsg) :
    ((c.trySend msg).2).closed = c.closed := by
  unfold TokioChan.trySend
  by_cases h1 : c.closed
  · simp [h1]
  · by_cases h2 : c.capacity ≤ c.msgs.length <;> simp [h1, h2]

theorem trySend_fst_closed_iff (c : TokioChan) (msg : RelayerMsg) :
    (c.trySend msg).1 = TrySendKind.closed ↔ c.closed = true := by
  unfold TokioChan.trySend
  by_cases h1 : c.closed
  · simp [h1]
  · by_cases h2 : c.capacity ≤ c.msgs.length <;> simp [h1, h2]

theorem sendBatchLoop_failed_provenance (chunk : List Packet) :
    ∀ (senders : List (Pubkey × Nat)) (heap : ChanHeap) (m : RelayerMetrics)
      (failed : List Pubkey) (q : Pubkey),
      q ∈ (sendBatchLoop chunk senders heap m failed).2.2 →
      q ∈ failed ∨ ∃ i, (q, i) ∈ senders ∧ (heap i).closed = true := by
  intro senders
  induction senders with
  | nil =>
    intro heap m failed q h
    exact Or.inl h
  | cons e rest ih =>
    intro heap m failed q h
    obtain ⟨pk, id⟩ := e
    simp only [sendBatchLoop] at h
    cases hts : (heap id).trySend (RelayerMsg.batch chunk) with
    | mk kind c =>
      rw [hts] at h
      cases kind with
      | ok =>
        have h2 : q ∈ (sendBatchLoop chunk rest (heap.set id c)
            (m.incForwarded pk chunk.length) failed).2.2 := h
        rcases ih (heap.set id c) (m.incForwarded pk chunk.length) failed q h2 with
          h1 | ⟨i, hi, hcl⟩
        · exact Or.inl h1
        · by_cases hii : i = id
          · subst hii
            simp [ChanHeap.set] at hcl
            have hcc : c.closed = (heap i).closed := by
              have hx := trySend_snd_closed (heap i) (RelayerMsg.batch chunk)
              rw [hts] at hx
              exact hx
            have hok : ¬ (heap i).closed = true := by
              intro hb
              have hx := (trySend_fst_closed_iff (heap i) (RelayerMsg.batch chunk)).mpr hb
              rw [hts] at hx
              exact absurd hx (by simp)
            rw [hcc] at hcl
            exact absurd hcl hok
          · refine Or.inr ⟨i, List.mem_cons_of_mem _ hi, ?_⟩
            simpa [ChanHeap.set, hii] using hcl
      | full =>
        have h2 : q ∈ (sendBatchLoop chunk rest heap
            (m.incDropped pk chunk.length) failed).2.2 := h
        rcases ih heap (m.incDropped pk chunk.length) failed q h2 with h1 | ⟨i, hi, hcl⟩
        · exact Or.inl h1
        · exact Or.inr ⟨i, List.mem_cons_of_mem _ hi, hcl⟩
      | closed =>
        have h2 : q ∈ failed ++ [pk] := h
        rcases List.mem_append.mp h2 with h1 | h1
        · exact Or.inl h1
        · have hq : q = pk := by simpa using h1
          subst hq
          refine Or.inr ⟨id, List.mem_cons_self _ _, ?_⟩
          have hx := (trySend_fst_closed_iff (heap id) (RelayerMsg.batch chunk)).mp
            (by rw [hts])
          exact hx

/-- C4: the fan-out pass outcomes. For one sub-batch and the senders list in
order: a successful try_send continues with the remaining senders after bumping
the forwarded counter of that identity by the sub-batch size (a saturating u64
add); a Full outcome continues with the remaining senders after bumping the
dropped counter by the sub-batch size, marking nobody for drop; a Closed outcome
appends the identity to the failed-forwards list and stops the subscriber loop
for this sub-batch; any identity in the resulting failed list was already there
or had a closed channel (so Full never marks for drop); the outer loop offers
every further non-empty sub-batch to the whole senders list again; and
drop_connections removes exactly the failed-forwards identities from the
registry. -/
theorem c4_fanout_outcomes (chunk : List Packet) (pk : Pubkey) (id : Nat)
    (rest : List (Pubkey × Nat)) (heap : ChanHeap) (m : RelayerMetrics)
    (failed : List Pubkey) :
    (∀ c, (heap id).trySend (RelayerMsg.batch chunk) = (TrySendKind.ok, c) →
      sendBatchLoop chunk ((pk, id) :: rest) heap m failed
        = sendBatchLoop chunk rest (heap.set id c) (m.incForwarded pk chunk.length) failed
      ∧ (chunk.length ≤ U64_MAX →
          (m.incForwarded pk chunk.length).forwardedCount pk
            = satAdd64 (m.forwardedCount pk) chunk.length))
    ∧ (∀ c, (heap id).trySend (RelayerMsg.batch chunk) = (TrySendKind.full, c) →
      sendBatchLoop chunk ((pk, id) :: rest) heap m failed
        = sendBatchLoop chunk rest heap (m.incDropped pk chunk.length) failed
      ∧ (chunk.length ≤ U64_MAX →
          (m.incDropped pk chunk.length).droppedCount pk
            = satAdd64 (m.droppedCount pk) chunk.length))
    ∧ (∀ c, (heap id).trySend (RelayerMsg.batch chunk) = (TrySendKind.closed, c) →
      sendBatchLoop chunk ((pk, id) :: rest) heap m failed = (heap, m, failed ++ [pk]))
    ∧ (∀ q, q ∈ (sendBatchLoop chunk ((pk, id) :: rest) heap m failed).2.2 →
        q ∈ failed ∨ ∃ i, (q, i) ∈ (pk, id) :: rest ∧ (heap i).closed = true)
    ∧ (∀ chunks senders, chunk ≠ [] →
        forwardBatchesLoop (chunk :: chunks) senders heap m failed
          = forwardBatchesLoop chunks senders
              (sendBatchLoop chunk senders heap m failed).1
              (sendBatchLoop chunk senders heap m failed).2.1
              (sendBatchLoop chunk senders heap m failed).2.2)
    ∧ (∀ (registry : List (Pubkey × Nat)) (fl : List Pubkey) (e : Pubkey × Nat),
        e ∈ (dropConnections fl registry m).1 ↔ e ∈ registry ∧ e.1 ∉ fl) := by
  refine ⟨?_, ?_, ?_, ?_, ?_, ?_⟩
  · intro c hc
    constructor
    · simp only [sendBatchLoop]
      rw [hc]
    · intro hlen
      unfold RelayerMetrics.forwardedCount RelayerMetrics.incForwarded
      cases hs : m.packet_stats_per_validator pk with
      | none =>
        simp only [hs, if_pos rfl]
        simp [satAdd64, U64_MAX] at hlen ⊢
        omega
      | some s => simp [hs]
  · intro c hc
    constructor
    · simp only [sendBatchLoop]
      rw [hc]
    · intro hlen
      unfold RelayerMetrics.droppedCount RelayerMetrics.incDropped
      cases hs : m.packet_stats_per_validator pk with
      | none =>
        simp only [hs, if_pos rfl]
        simp [satAdd64, U64_MAX] at hlen ⊢
        omega
      | some s => simp [hs]
  · intro c hc
    simp only [sendBatchLoop]
    rw [hc]
  · exact sendBatchLoop_failed_provenance chunk ((pk, id) :: rest) heap m failed
  · intro chunks senders hne
    simp only [forwardBatchesLoop]
    rw [if_neg (by simpa [List.isEmpty_iff] using hne)]
  · intro registry fl e
    simp [dropConnections, List.mem_filter]

/-- Witness for C4: one-packet sub-batch delivered to subscriber 1 over an open
channel bumps its forwarded counter from 0 to 1, and dropping the failed list
[2] keeps entry (1, 0) of the registry. -/
theorem c4_fanout_outcomes_witness :
    (RelayerMetrics.new.incForwarded 1 1).forwardedCount 1
      = satAdd64 (RelayerMetrics.new.forwardedCount 1) 1
    ∧ ((1, 0) ∈ (dropConnections [2] [(1, 0), (2, 1)] RelayerMetrics.new).1
        ↔ (1, 0) ∈ ([(1, 0), (2, 1)] : List (Pubkey × Nat))
          ∧ (1 : Pubkey) ∉ ([2] : List Pubkey)) :=
  ⟨((c4_fanout_outcomes [Packet.mk false none] 1 0 []
      (ChanHeap.set (fun _ => initChan) 0 (TokioChan.mk [] 2 false))
      RelayerMetrics.new []).1
      (TokioChan.mk [RelayerMsg.batch [Packet.mk false none]] 2 false)
      (by decide)).2 (by decide),
   (c4_fanout_outcomes [Packet.mk false none] 1 0 []
      (ChanHeap.set (fun _ => initChan) 0 (TokioChan.mk [] 2 false))
      RelayerMetrics.new []).2.2.2.2.2 [(1, 0), (2, 1)] [2] (1, 0)⟩
